import Mathlib

/-!
# Verification of the AI2 GNSS protocol codec (`read-gps.c`)

A shallow embedding of the protocol codec of `read-gps.c`:

* the frame encoder (`write_packet` / `append_packet`),
* the byte framer state machine (`read_loop`),
* the frame validator and sub-packet splitter (`process_ai2_frame`),
* the per-type payload decoders (`process_measurement`, `process_position`,
  `process_nmea`, `process_async_event`).

Bytes are modelled as `Nat`; the C program's `uint8_t` stores truncate with
`% 256` and its `uint16_t` arithmetic truncates with `% 65536`, which is made
explicit below.  Signed 32/16-bit wire fields become `Int` via two's
complement, and the floating-point degree/altitude conversions — which are
exact in binary64 for the ranges involved (products below `2^53`, divisions by
powers of two) — are modelled in `ℚ`.
-/

/-- Diagnostics emitted by the framer, validator and splitter
(`decode_err_out` / `decode_info_out` messages in the source). -/
inductive Diag where
  | noise              -- stray byte while idle ("d")
  | unexpectedEnd      -- "unexpected end of packet"
  | overlong           -- "overlong packet, throwing away"
  | checksumMismatch   -- "checksum mismatch"
  | ack                -- "decoded ack"
  | cutOff             -- "packet cut off"
deriving DecidableEq, Repr

/-! ## Frame encoder (`write_packet`, `append_packet`) -/

/-- `append_packet`: store one byte at the end of the packet under
construction; a `0x10` byte is stored twice (escaped). -/
def append_packet (pkt : List Nat) (d : Nat) : List Nat :=
  let pkt1 := pkt ++ [d]
  if d = 0x10 then pkt1 ++ [d] else pkt1

/-- The running `uint16_t` checksum of `write_packet`:
`sum = 0x10 + class + cmd; sum += len & 0xff; sum += len >> 8;`
then `sum += data[i]` for each payload byte, all modulo `2^16`. -/
def write_packet_sum (cls cmd : Nat) (data : List Nat) : Nat :=
  let len := data.length
  let s0 := (0x10 + cls + cmd) % 65536
  let s1 := (s0 + len % 256) % 65536
  let s2 := (s1 + len / 256) % 65536
  data.foldl (fun a b => (a + b) % 65536) s2

/-- The byte sequence stored by `write_packet` into its packet buffer, in
store order: raw start marker and class byte, escaped command and length
bytes, escaped payload, then the two checksum bytes, `0x10` and `0x03`
stored directly (not through `append_packet`). -/
def write_packet_bytes (cls cmd : Nat) (data : List Nat) : List Nat :=
  let len := data.length
  let pkt0 : List Nat := [0x10, cls]
  let pkt1 := append_packet pkt0 cmd
  let pkt2 := append_packet pkt1 (len % 256)
  let pkt3 := append_packet pkt2 (len / 256)
  let pkt4 := data.foldl append_packet pkt3
  let sum := write_packet_sum cls cmd data
  pkt4 ++ [sum % 256, sum / 256, 0x10, 0x03]

/-- The size of the buffer `write_packet` allocates: `calloc(1, 4 + len * 2 + 2)`. -/
def write_packet_alloc (len : Nat) : Nat := 4 + len * 2 + 2

/-- The escaping applied to the command, length and payload region:
each `0x10` byte is emitted twice, every other byte once. -/
def escape_bytes (l : List Nat) : List Nat :=
  l.flatMap (fun b => if b = 0x10 then [b, b] else [b])

/-- Modelled from the spec: §4.4 step 3 claims the two checksum bytes are
emitted through the same escaping as the command, length and payload bytes.
This definition follows the spec's words and is compared against
`write_packet_bytes`, which is translated from the source. -/
def write_packet_bytes_specEscChk (cls cmd : Nat) (data : List Nat) : List Nat :=
  let len := data.length
  let sum := write_packet_sum cls cmd data
  [0x10, cls] ++
    escape_bytes ([cmd, len % 256, len / 256] ++ data ++ [sum % 256, sum / 256]) ++
    [0x10, 0x03]

/-! ## Byte framer (`read_loop`) -/

/-- Framer state: the collected frame bytes (`gpsbuf[0..bufpos)`) and the
`escaping` flag. -/
structure FrState where
  buf : List Nat
  escaping : Bool
deriving DecidableEq, Repr

/-- Initial framer state: `bufpos = 0` (the uninitialised `escaping` is
always written before it is read, because the first iteration has
`bufpos == 0`). -/
def init_state : FrState := ⟨[], false⟩

/-- The result of feeding one byte to the framer. -/
structure FrStep where
  st : FrState
  frame : Option (List Nat)
  diags : List Diag
  store : Option Nat    -- index of the `gpsbuf` store performed, if any
deriving DecidableEq, Repr

/-- One iteration of the `read_loop` body on input byte `c`:

* `bufpos == 0`: clear `escaping`; a byte other than `0x10` is noise;
* `bufpos == 1 && c == 3`: "unexpected end of packet", restart;
* not escaping, `c == 0x10`, `bufpos != 0`: set `escaping`, store nothing;
* escaping and `c == 3`: the buffer is a complete frame, restart;
* otherwise clear `escaping`; if the buffer holds 1024 bytes, reset it and
  log "overlong packet"; then store `(uint8_t) c`. -/
def framer_step (s : FrState) (c : Nat) : FrStep :=
  let esc0 := if s.buf.length = 0 then false else s.escaping
  if s.buf.length = 0 ∧ c ≠ 0x10 then
    ⟨⟨s.buf, false⟩, none, [.noise], none⟩
  else if s.buf.length = 1 ∧ c = 3 then
    ⟨⟨[], s.escaping⟩, none, [.unexpectedEnd], none⟩
  else if ¬esc0 ∧ c = 0x10 ∧ s.buf.length ≠ 0 then
    ⟨⟨s.buf, true⟩, none, [], none⟩
  else if esc0 ∧ c = 3 then
    ⟨⟨[], esc0⟩, some s.buf, [], none⟩
  else
    let buf1 := if s.buf.length = 1024 then [] else s.buf
    let d : List Diag := if s.buf.length = 1024 then [.overlong] else []
    ⟨⟨buf1 ++ [c % 256], false⟩, none, d, some buf1.length⟩

/-- The result of running the framer over an input byte list. -/
structure FrRun where
  st : FrState
  frames : List (List Nat)
  diags : List Diag
deriving DecidableEq, Repr

/-- Run the framer over a byte list, collecting completed frames and
diagnostics. -/
def framer_run (s : FrState) : List Nat → FrRun
  | [] => ⟨s, [], []⟩
  | c :: rest =>
    let o := framer_step s c
    let r := framer_run o.st rest
    ⟨r.st, o.frame.toList ++ r.frames, o.diags ++ r.diags⟩

/-- The indices of all `gpsbuf` stores the framer performs on an input. -/
def framer_stores (s : FrState) : List Nat → List Nat
  | [] => []
  | c :: rest =>
    let o := framer_step s c
    o.store.toList ++ framer_stores o.st rest

/-! ## Frame validator and sub-packet splitter (`process_ai2_frame`) -/

/-- The little-endian checksum read from the two trailing frame bytes:
`chk = buf[len-1]; chk <<= 8; chk |= buf[len-2]` (bytes are `< 256`, so the
shift-or is plain arithmetic). -/
def frame_chk (f : List Nat) : Nat :=
  f.getD (f.length - 1) 0 * 256 + f.getD (f.length - 2) 0

/-- The `uint16_t` sum over the frame bytes with the two trailing checksum
bytes stripped: `for (i = 0, sum = 0; i < len; i++) sum += buf[i];`. -/
def frame_sum (f : List Nat) : Nat :=
  (f.take (f.length - 2)).foldl (fun a b => (a + b) % 65536) 0

/-- The sub-packet loop of `process_ai2_frame`: while at least 3 body bytes
remain, read `type = buf[0]`, `sublen = (buf[2] << 8) | buf[1]`, advance 3;
if fewer than `sublen` bytes remain, "packet cut off" and stop; otherwise
dispatch `(class, type, payload)` to `process_packet` and advance `sublen`. -/
def split_subpackets (cls : Nat) (rest : List Nat) :
    List (Nat × Nat × List Nat) × List Diag :=
  if rest.length < 3 then ([], [])
  else
    let ty := rest.getD 0 0
    let sublen := rest.getD 2 0 * 256 + rest.getD 1 0
    let rest1 := rest.drop 3
    if rest1.length < sublen then ([], [.cutOff])
    else
      let r := split_subpackets cls (rest1.drop sublen)
      ((cls, ty, rest1.take sublen) :: r.1, r.2)
termination_by rest.length
decreasing_by simp [rest1]; omega

/-- `process_ai2_frame`: discard frames shorter than 4 bytes; strip and check
the trailing little-endian checksum against the `uint16_t` sum of the
remaining bytes; recognise `class == 2` acknowledgment frames; otherwise skip
the first two buffer bytes and split the body into sub-packets.  Returns the
list of `(class, type, payload)` triples handed to `process_packet`, plus
diagnostics. -/
def process_ai2_frame (f : List Nat) : List (Nat × Nat × List Nat) × List Diag :=
  if f.length < 4 then ([], [])
  else
    let chk := frame_chk f
    let body := f.take (f.length - 2)
    let sum := frame_sum f
    if chk ≠ sum then ([], [.checksumMismatch])
    else
      let cls := f.getD 1 0
      if cls = 2 then ([], [.ack])
      else split_subpackets cls (body.drop 2)

/-- The whole receive pipeline: run the framer over the raw byte stream and
hand every completed frame to `process_ai2_frame`; collect every
`(class, type, payload)` triple dispatched to `process_packet`. -/
def decode_stream (input : List Nat) : List (Nat × Nat × List Nat) :=
  ((framer_run init_state input).frames).flatMap (fun f => (process_ai2_frame f).1)

/-! ## Payload decoders -/

/-- Read a little-endian 16-bit field at byte offset `i` (the `uint16_t`
members of the packed wire structs, machine order assumed little-endian). -/
def le16D (data : List Nat) (i : Nat) : Nat :=
  data.getD i 0 + 256 * data.getD (i + 1) 0

/-- Read a little-endian 32-bit field at byte offset `i` (the `uint32_t`
members of the packed wire structs). -/
def le32D (data : List Nat) (i : Nat) : Nat :=
  data.getD i 0 + 256 * data.getD (i + 1) 0 +
    65536 * data.getD (i + 2) 0 + 16777216 * data.getD (i + 3) 0

/-- Fallible little-endian 32-bit read: `none` marks an access past the end
of the payload (which in the C source is an out-of-range pointer read). -/
def le32_at (data : List Nat) (i : Nat) : Option Nat := do
  let b0 ← data.get? i
  let b1 ← data.get? (i + 1)
  let b2 ← data.get? (i + 2)
  let b3 ← data.get? (i + 3)
  pure (b0 + 256 * b1 + 65536 * b2 + 16777216 * b3)

/-- Two's-complement reading of a 32-bit value (the `int32_t` wire fields). -/
def sint32 (v : Nat) : Int :=
  if v < 2 ^ 31 then (v : Int) else (v : Int) - 2 ^ 32

/-- Two's-complement reading of a 16-bit value (the `int16_t` wire fields). -/
def sint16 (v : Nat) : Int :=
  if v < 2 ^ 15 then (v : Int) else (v : Int) - 2 ^ 16

/-- One satellite record of a measurement report
(`struct measurement_sv.svdata[i]`): `sv` at offset `4 + 28 i`, `snr` and
`cno` as little-endian `uint16_t` scaled by `1/10`. -/
structure MeasurementSv where
  sv : Nat
  snr : ℚ
  cno : ℚ
deriving DecidableEq, Repr

/-- A decoded measurement report. -/
structure Measurement where
  fcount : Nat
  sats : Nat
  svs : List MeasurementSv
  excess : Bool
deriving DecidableEq, Repr

/-- `sizeof(sv->svdata[0])`: 1 + 2 + 2 + 23 bytes, packed. -/
def measurement_sv_size : Nat := 28

/-- Read satellite record `i` of a measurement payload. -/
def read_measurement_sv (data : List Nat) (i : Nat) : MeasurementSv :=
  { sv := data.getD (4 + 28 * i) 0
    snr := (le16D data (5 + 28 * i) : ℚ) / 10
    cno := (le16D data (7 + 28 * i) : ℚ) / 10 }

/-- `process_measurement`: payloads shorter than 4 bytes are skipped
(`return` before any decode); otherwise `sats = (len - 4) / 28` complete
records are decoded and "excess data" is flagged when `(len - 4) % 28 != 0`. -/
def process_measurement (data : List Nat) : Option Measurement :=
  if data.length < 4 then none
  else
    let sats := (data.length - 4) / measurement_sv_size
    some { fcount := le32D data 0
           sats := sats
           svs := (List.range sats).map (read_measurement_sv data)
           excess := decide ((data.length - 4) % measurement_sv_size ≠ 0) }

/-- A decoded position report (`struct position`).  The degree and metre
conversions `90 * lat / 2^31`, `180 * lon / 2^31` and `altitude / 2` are
exact in binary64 for these ranges and are modelled in `ℚ`. -/
structure Position where
  fcount : Nat
  lat_deg : ℚ
  lon_deg : ℚ
  altitude_m : ℚ
  svs : List Nat
deriving DecidableEq, Repr

/-- `sizeof(struct position)`: 4 + 2 + 4 + 4 + 2 + 15 bytes, packed. -/
def position_size : Nat := 31

/-- `process_position`: payloads shorter than `sizeof(struct position)` are
skipped; otherwise `fcount` at offset 0, signed `lat`/`lon` at offsets 6/10,
signed `altitude` at offset 14, and one satellite id per 6-byte trailing
record starting at offset 31. -/
def process_position (data : List Nat) : Option Position :=
  if data.length < position_size then none
  else
    some { fcount := le32D data 0
           lat_deg := 90 * (sint32 (le32D data 6) : ℚ) / 2147483648
           lon_deg := 180 * (sint32 (le32D data 10) : ℚ) / 2147483648
           altitude_m := (sint16 (le16D data 14) : ℚ) / 2
           svs := (List.range ((data.length - position_size) / 6)).map
                    (fun i => data.getD (position_size + 6 * i) 0) }

/-- `process_nmea`: reads `p->fcount` (payload bytes 0–3) unconditionally —
`none` marks the out-of-range read the C source performs when `len < 4` —
and forwards the remaining bytes verbatim when `len > 4`. -/
def process_nmea (data : List Nat) : Option (Nat × List Nat) := do
  let fcount ← le32_at data 0
  pure (fcount, if data.length > 4 then data.drop 4 else [])

/-- The async events of `process_async_event`. -/
inductive AsyncEvent where
  | engIdle
  | engOff
  | unknown (code : Nat)
deriving DecidableEq, Repr

/-- `process_async_event`: switches on `data[0]` unconditionally — `none`
marks the out-of-range read the C source performs on an empty payload. -/
def process_async_event (data : List Nat) : Option AsyncEvent :=
  match data.get? 0 with
  | none => none
  | some b =>
    if b = 0x07 then some .engIdle
    else if b = 0x01 then some .engOff
    else some (.unknown b)

/-! ## Encoder lemmas -/

theorem append_packet_eq_escape (pkt : List Nat) (d : Nat) :
    append_packet pkt d = pkt ++ escape_bytes [d] := by
  simp only [append_packet, escape_bytes, List.flatMap_cons, List.flatMap_nil]
  by_cases h : d = 0x10 <;> simp [h]

theorem escape_bytes_append (l1 l2 : List Nat) :
    escape_bytes (l1 ++ l2) = escape_bytes l1 ++ escape_bytes l2 := by
  simp [escape_bytes]

theorem escape_bytes_cons (b : Nat) (l : List Nat) :
    escape_bytes (b :: l) =
      (if b = 0x10 then [b, b] else [b]) ++ escape_bytes l := by
  simp [escape_bytes]

theorem foldl_append_packet (data : List Nat) (pkt : List Nat) :
    data.foldl append_packet pkt = pkt ++ escape_bytes data := by
  induction data generalizing pkt with
  | nil => simp [escape_bytes]
  | cons b bs ih =>
    rw [List.foldl_cons, ih, append_packet_eq_escape, List.append_assoc,
      ← escape_bytes_append]
    rfl

/-- An escaped run contains no literal byte when the source has none;
in particular a run of bytes other than `0x10` is passed through unchanged. -/
theorem escape_bytes_of_no_escape (l : List Nat) (h : ∀ b ∈ l, b ≠ 0x10) :
    escape_bytes l = l := by
  induction l with
  | nil => rfl
  | cons b bs ih =>
    rw [escape_bytes_cons, if_neg (h b (by simp)), ih (fun x hx => h x (by simp [hx]))]
    rfl

theorem foldl_mod_add (l : List Nat) (a : Nat) :
    l.foldl (fun x b => (x + b) % 65536) (a % 65536) = (a + l.sum) % 65536 := by
  induction l generalizing a with
  | nil => simp
  | cons c cs ih =>
    rw [List.foldl_cons, List.sum_cons]
    have h1 : (a % 65536 + c) % 65536 = (a + c) % 65536 := by omega
    rw [h1, ih (a + c)]
    omega

theorem write_packet_sum_eq (cls cmd : Nat) (data : List Nat) :
    write_packet_sum cls cmd data =
      (0x10 + cls + cmd + data.length % 256 + data.length / 256 + data.sum) % 65536 := by
  simp only [write_packet_sum]
  have h : (((0x10 + cls + cmd) % 65536 + data.length % 256) % 65536
        + data.length / 256) % 65536
      = (0x10 + cls + cmd + data.length % 256 + data.length / 256) % 65536 := by
    omega
  rw [h, foldl_mod_add]

theorem write_packet_sum_lt (cls cmd : Nat) (data : List Nat) :
    write_packet_sum cls cmd data < 65536 := by
  rw [write_packet_sum_eq]
  exact Nat.mod_lt _ (by omega)

/-- Structure of the encoder output: start marker and class raw, then the
escaped command / length / payload region, then the two checksum bytes
emitted raw (not escaped), then the raw terminator. -/
theorem write_packet_bytes_eq (cls cmd : Nat) (data : List Nat) :
    write_packet_bytes cls cmd data =
      [0x10, cls] ++
        escape_bytes ([cmd, data.length % 256, data.length / 256] ++ data) ++
        [write_packet_sum cls cmd data % 256, write_packet_sum cls cmd data / 256,
          0x10, 0x03] := by
  simp only [write_packet_bytes, foldl_append_packet, append_packet_eq_escape,
    escape_bytes_append, List.append_assoc]
  rw [show [cmd, data.length % 256, data.length / 256]
        = [cmd] ++ ([data.length % 256] ++ [data.length / 256]) by simp,
    escape_bytes_append, escape_bytes_append]
  simp [List.append_assoc]

/-! ## Framer step lemmas -/

theorem framer_step_idle_marker (e : Bool) :
    framer_step ⟨[], e⟩ 0x10 = ⟨⟨[0x10], false⟩, none, [], some 0⟩ := by
  simp [framer_step]

theorem framer_step_idle_noise (e : Bool) (c : Nat) (hc : c ≠ 0x10) :
    framer_step ⟨[], e⟩ c = ⟨⟨[], false⟩, none, [.noise], none⟩ := by
  simp [framer_step, hc]

theorem framer_step_class (s : FrState) (c : Nat) (h1 : s.buf.length = 1)
    (hesc : s.escaping = false) (hc16 : c ≠ 0x10) (hc3 : c ≠ 3) :
    framer_step s c = ⟨⟨s.buf ++ [c % 256], false⟩, none, [], some 1⟩ := by
  simp [framer_step, h1, hesc, hc16, hc3]

theorem framer_step_plain (s : FrState) (c : Nat) (h2 : 2 ≤ s.buf.length)
    (hesc : s.escaping = false) (hc : c ≠ 0x10) (hlen : s.buf.length ≠ 1024) :
    framer_step s c = ⟨⟨s.buf ++ [c % 256], false⟩, none, [], some s.buf.length⟩ := by
  simp [framer_step, hesc, hc, hlen, show s.buf.length ≠ 0 by omega,
    show ¬(s.buf.length = 1 ∧ c = 3) by omega]

theorem framer_step_escape (s : FrState) (h0 : s.buf.length ≠ 0)
    (hesc : s.escaping = false) :
    framer_step s 0x10 = ⟨⟨s.buf, true⟩, none, [], none⟩ := by
  simp [framer_step, h0, hesc]

theorem framer_step_escaped_store (s : FrState) (c : Nat) (h2 : 2 ≤ s.buf.length)
    (hesc : s.escaping = true) (hc : c ≠ 3) (hlen : s.buf.length ≠ 1024) :
    framer_step s c = ⟨⟨s.buf ++ [c % 256], false⟩, none, [], some s.buf.length⟩ := by
  simp [framer_step, hesc, hc, hlen, show s.buf.length ≠ 0 by omega,
    show ¬(s.buf.length = 1 ∧ c = 3) by omega]

theorem framer_step_terminate (s : FrState) (h2 : 2 ≤ s.buf.length)
    (hesc : s.escaping = true) :
    framer_step s 3 = ⟨⟨[], true⟩, some s.buf, [], none⟩ := by
  simp [framer_step, hesc, show s.buf.length ≠ 0 by omega,
    show s.buf.length ≠ 1 by omega]

theorem framer_run_cons (s : FrState) (c : Nat) (rest : List Nat) :
    framer_run s (c :: rest) =
      ⟨(framer_run (framer_step s c).st rest).st,
        (framer_step s c).frame.toList ++ (framer_run (framer_step s c).st rest).frames,
        (framer_step s c).diags ++ (framer_run (framer_step s c).st rest).diags⟩ := by
  rfl

/-- A step that emits neither a frame nor a diagnostic only advances the
state. -/
theorem framer_run_cons_silent (s s1 : FrState) (c : Nat) (rest : List Nat)
    (st : Option Nat) (h : framer_step s c = ⟨s1, none, [], st⟩) :
    framer_run s (c :: rest) = framer_run s1 rest := by
  rw [framer_run_cons, h]
  simp

/-- A step that emits one diagnostic and no frame prepends it to the run's
diagnostics. -/
theorem framer_run_cons_diag (s s1 : FrState) (c : Nat) (rest : List Nat)
    (d : Diag) (st : Option Nat) (h : framer_step s c = ⟨s1, none, [d], st⟩) :
    framer_run s (c :: rest)
      = ⟨(framer_run s1 rest).st, (framer_run s1 rest).frames,
          d :: (framer_run s1 rest).diags⟩ := by
  rw [framer_run_cons, h]
  simp

/-- Feeding an escaped byte region to a collecting framer appends the
un-escaped bytes to the buffer, emits nothing, and leaves `escaping` clear. -/
theorem framer_run_escaped (bs : List Nat) (buf rest : List Nat)
    (h2 : 2 ≤ buf.length) (hlen : buf.length + bs.length ≤ 1024)
    (hb : ∀ b ∈ bs, b < 256) :
    framer_run ⟨buf, false⟩ (escape_bytes bs ++ rest)
      = framer_run ⟨buf ++ bs, false⟩ rest := by
  induction bs generalizing buf with
  | nil => simp [escape_bytes]
  | cons b bs ih =>
    have hb0 : b < 256 := hb b (by simp)
    have hbs : ∀ x ∈ bs, x < 256 := fun x hx => hb x (by simp [hx])
    have hne : buf.length ≠ 1024 := by
      have := hlen
      simp only [List.length_cons] at this
      omega
    rw [escape_bytes_cons]
    by_cases h16 : b = 0x10
    · subst h16
      rw [if_pos rfl]
      simp only [List.cons_append, List.nil_append]
      rw [framer_run_cons, framer_step_escape ⟨buf, false⟩
        (by show buf.length ≠ 0; omega) rfl]
      rw [framer_run_cons, framer_step_escaped_store ⟨buf, true⟩ 0x10 h2 rfl
        (by omega) hne]
      simp only [Option.toList_none, List.nil_append]
      have : (0x10 : Nat) % 256 = 0x10 := by norm_num
      rw [this]
      rw [ih (buf ++ [0x10]) (by simp; omega) (by simp at hlen ⊢; omega) hbs]
      simp [List.append_assoc]
    · simp only [if_neg h16, List.cons_append, List.nil_append]
      rw [framer_run_cons, framer_step_plain ⟨buf, false⟩ b h2 rfl h16 hne]
      simp only [Option.toList_none, List.nil_append]
      rw [Nat.mod_eq_of_lt hb0]
      rw [ih (buf ++ [b]) (by simp; omega) (by simp at hlen ⊢; omega) hbs]
      simp [List.append_assoc]

/-! ## Splitter lemmas -/

theorem split_subpackets_short (cls : Nat) (rest : List Nat) (h : rest.length < 3) :
    split_subpackets cls rest = ([], []) := by
  unfold split_subpackets
  simp [h]

theorem split_subpackets_cutoff (cls : Nat) (t : List Nat) (h3 : 3 ≤ t.length)
    (hcut : t.length - 3 < t.getD 2 0 * 256 + t.getD 1 0) :
    split_subpackets cls t = ([], [.cutOff]) := by
  unfold split_subpackets
  rw [if_neg (by omega)]
  rw [if_pos (by simp only [List.length_drop]; omega)]

theorem split_subpackets_step (cls : Nat) (rest : List Nat) (h3 : ¬ rest.length < 3)
    (hlen : ¬ (rest.drop 3).length < rest.getD 2 0 * 256 + rest.getD 1 0) :
    split_subpackets cls rest =
      (((cls, rest.getD 0 0,
          (rest.drop 3).take (rest.getD 2 0 * 256 + rest.getD 1 0))
          :: (split_subpackets cls
            ((rest.drop 3).drop (rest.getD 2 0 * 256 + rest.getD 1 0))).1),
        (split_subpackets cls
          ((rest.drop 3).drop (rest.getD 2 0 * 256 + rest.getD 1 0))).2) := by
  conv_lhs => unfold split_subpackets
  rw [if_neg h3, if_neg hlen]

/-! ## Frame lemmas -/

theorem getD_snoc2_lo (l : List Nat) (x y : Nat) :
    (l ++ [x, y]).getD l.length 0 = x := by
  rw [List.getD_append_right _ _ _ _ (le_refl _)]
  simp

theorem getD_snoc2_hi (l : List Nat) (x y : Nat) :
    (l ++ [x, y]).getD (l.length + 1) 0 = y := by
  rw [List.getD_append_right _ _ _ _ (by omega)]
  simp [List.getD]

theorem frame_chk_snoc2 (front : List Nat) (x y : Nat) :
    frame_chk (front ++ [x, y]) = y * 256 + x := by
  unfold frame_chk
  have hl : (front ++ [x, y]).length = front.length + 2 := by simp
  rw [hl, show front.length + 2 - 1 = front.length + 1 by omega,
    show front.length + 2 - 2 = front.length by omega,
    getD_snoc2_lo, getD_snoc2_hi]

theorem frame_sum_snoc2 (front : List Nat) (x y : Nat) :
    frame_sum (front ++ [x, y]) = front.sum % 65536 := by
  unfold frame_sum
  rw [show (front ++ [x, y]).length - 2 = front.length by simp, List.take_left]
  have h := foldl_mod_add front 0
  simpa using h

/-- A checksum-correct encoded frame, exactly as the framer buffers it
(marker, class, un-escaped command/length/payload, the two checksum bytes),
validates and splits into exactly the encoded sub-packet. -/
theorem process_ai2_frame_of_encoded (cls cmd : Nat) (data : List Nat)
    (hcls2 : cls ≠ 2) :
    process_ai2_frame
        (([0x10, cls] ++ ([cmd, data.length % 256, data.length / 256] ++ data))
          ++ [write_packet_sum cls cmd data % 256, write_packet_sum cls cmd data / 256])
      = ([(cls, cmd, data)], []) := by
  set len := data.length with hlendef
  set S := write_packet_sum cls cmd data with hSdef
  set mid : List Nat := [cmd, len % 256, len / 256] ++ data with hmid
  set front : List Nat := [0x10, cls] ++ mid with hfront
  have hml : mid.length = 3 + len := by simp [hmid]; omega
  have hfl : front.length = 5 + len := by simp [hfront, hml]; omega
  have hL : (front ++ [S % 256, S / 256]).length = 7 + len := by simp [hfl]; omega
  unfold process_ai2_frame
  rw [if_neg (by rw [hL]; omega)]
  simp only []
  have hchk : frame_chk (front ++ [S % 256, S / 256]) = S := by
    rw [frame_chk_snoc2]
    have := write_packet_sum_lt cls cmd data
    rw [← hSdef] at this
    omega
  have hsum : frame_sum (front ++ [S % 256, S / 256]) = S := by
    rw [frame_sum_snoc2, hSdef, write_packet_sum_eq, ← hlendef]
    congr 1
    simp [hfront, hmid]
    omega
  rw [hchk, hsum, if_neg (by simp)]
  have hgetD1 : (front ++ [S % 256, S / 256]).getD 1 0 = cls := by
    rw [hfront]
    simp [List.getD_cons_succ, List.getD_cons_zero]
  rw [hgetD1, if_neg hcls2]
  have hbody : (front ++ [S % 256, S / 256]).take
      ((front ++ [S % 256, S / 256]).length - 2) = front := by
    rw [hL, show 7 + len - 2 = 5 + len by omega, List.take_left' hfl]
  rw [hbody]
  have hdrop2 : front.drop 2 = mid := by
    rw [hfront]
    rfl
  rw [hdrop2]
  have hg1 : mid.getD 1 0 = len % 256 := by rw [hmid]; rfl
  have hg2 : mid.getD 2 0 = len / 256 := by rw [hmid]; rfl
  have hg0 : mid.getD 0 0 = cmd := by rw [hmid]; rfl
  have hsublen : mid.getD 2 0 * 256 + mid.getD 1 0 = len := by
    rw [hg1, hg2]; omega
  have hdrop3 : mid.drop 3 = data := by rw [hmid]; rfl
  rw [split_subpackets_step cls mid (by omega)
    (by rw [hsublen, hdrop3, hlendef]; omega)]
  rw [hsublen, hdrop3, hg0]
  rw [List.take_of_length_le (by rw [hlendef]),
    List.drop_of_length_le (by rw [hlendef]),
    split_subpackets_short cls [] (by simp)]

/-- Feeding one encoded packet to an idle framer completes exactly one frame:
the marker, class, un-escaped middle region and the two checksum bytes. -/
theorem framer_run_of_encoded (cls cmd : Nat) (data : List Nat)
    (hcls : cls < 256) (hcls3 : cls ≠ 3) (hcls16 : cls ≠ 0x10)
    (hcmd : cmd < 256) (hdata : ∀ b ∈ data, b < 256)
    (hlen : data.length ≤ 1017)
    (hlo : write_packet_sum cls cmd data % 256 ≠ 0x10)
    (hhi : write_packet_sum cls cmd data / 256 ≠ 0x10) :
    framer_run init_state (write_packet_bytes cls cmd data) =
      ⟨⟨[], true⟩,
        [([0x10, cls] ++ ([cmd, data.length % 256, data.length / 256] ++ data))
          ++ [write_packet_sum cls cmd data % 256, write_packet_sum cls cmd data / 256]],
        []⟩ := by
  set len := data.length with hlendef
  set S := write_packet_sum cls cmd data with hSdef
  set mid : List Nat := [cmd, len % 256, len / 256] ++ data with hmid
  have hml : mid.length = 3 + len := by simp [hmid]; omega
  have hmidlt : ∀ b ∈ mid, b < 256 := by
    intro b hb
    rw [hmid] at hb
    simp only [List.mem_append, List.mem_cons, List.not_mem_nil, or_false] at hb
    rcases hb with (rfl | rfl | rfl) | hb
    · exact hcmd
    · exact Nat.mod_lt _ (by norm_num)
    · omega
    · exact hdata b hb
  have hSlt : S < 65536 := by rw [hSdef]; exact write_packet_sum_lt cls cmd data
  rw [write_packet_bytes_eq, ← hSdef, ← hlendef, ← hmid]
  have e1 : [0x10, cls] ++ escape_bytes mid ++ [S % 256, S / 256, 0x10, 0x03]
      = 0x10 :: cls :: (escape_bytes mid ++ [S % 256, S / 256, 0x10, 0x03]) := by
    simp
  rw [e1]
  show framer_run ⟨[], false⟩ _ = _
  rw [framer_run_cons, framer_step_idle_marker]
  rw [framer_run_cons, framer_step_class ⟨[0x10], false⟩ cls rfl rfl hcls16 hcls3]
  simp only [Option.toList_none, List.nil_append]
  rw [Nat.mod_eq_of_lt hcls]
  rw [framer_run_escaped mid ([0x10] ++ [cls])
    [S % 256, S / 256, 0x10, 0x03] (by simp) (by simp [hml]; omega) hmidlt]
  have hblen : (([0x10] ++ [cls]) ++ mid).length = 5 + len := by simp [hml]; omega
  rw [framer_run_cons, framer_step_plain (⟨([0x10] ++ [cls]) ++ mid, false⟩) (S % 256)
    (by simp [hblen]) rfl hlo (by simp only [hblen]; omega)]
  simp only [Option.toList_none, List.nil_append]
  rw [Nat.mod_eq_of_lt (show S % 256 < 256 from Nat.mod_lt _ (by norm_num))]
  rw [framer_run_cons, framer_step_plain _ (S / 256)
    (by simp [hblen]) rfl hhi (by simp [hblen]; omega)]
  simp only [Option.toList_none, List.nil_append]
  rw [Nat.mod_eq_of_lt (show S / 256 < 256 by omega)]
  rw [framer_run_cons, framer_step_escape _ (by simp [hblen]) rfl]
  simp only [Option.toList_none, List.nil_append]
  rw [framer_run_cons, framer_step_terminate _ (by simp [hblen]) rfl]
  show _ = FrRun.mk ⟨[], true⟩ _ _
  simp [framer_run, List.append_assoc]

/-- C1 (amended): encode-then-decode round-trip.  For every class byte other
than `0x02` (ack), `0x03` (premature-terminator collision) and `0x10`
(marker collision), every command byte, and every payload of at most 1017
bytes whose resulting checksum contains no `0x10` byte, feeding the encoder
output through the byte framer and frame validator/splitter dispatches
exactly one sub-packet carrying the original class, command and payload. -/
theorem ai2_round_trip (cls cmd : Nat) (data : List Nat)
    (hcls : cls < 256) (hcls2 : cls ≠ 2) (hcls3 : cls ≠ 3) (hcls16 : cls ≠ 0x10)
    (hcmd : cmd < 256) (hdata : ∀ b ∈ data, b < 256)
    (hlen : data.length ≤ 1017)
    (hlo : write_packet_sum cls cmd data % 256 ≠ 0x10)
    (hhi : write_packet_sum cls cmd data / 256 ≠ 0x10) :
    decode_stream (write_packet_bytes cls cmd data) = [(cls, cmd, data)] := by
  unfold decode_stream
  rw [framer_run_of_encoded cls cmd data hcls hcls3 hcls16 hcmd hdata hlen hlo hhi]
  show List.flatMap _ _ = _
  rw [List.flatMap_cons, List.flatMap_nil,
    process_ai2_frame_of_encoded cls cmd data hcls2]
  simp

/-- C1 counterexample: for `class = 0`, `cmd = 0` and the empty payload the
checksum is `0x0010`, its low byte `0x10` is emitted un-escaped, the framer
treats it as an escape marker, and the resulting frame fails checksum
validation: no sub-packet at all is dispatched, refuting the unrestricted
round-trip claim. -/
theorem ai2_round_trip_counterexample :
    write_packet_sum 0 0 [] % 256 = 0x10 ∧
    decode_stream (write_packet_bytes 0 0 []) = [] ∧
    decode_stream (write_packet_bytes 0 0 []) ≠ [(0, 0, [])] := by
  refine ⟨by decide, by decide, by decide⟩

/-- C1 witness: a payload containing a `0x10` byte round-trips when the
class avoids `{2, 3, 0x10}` and the checksum contains no `0x10` byte. -/
theorem ai2_round_trip_witness :
    (1 : Nat) < 256 ∧ (1 : Nat) ≠ 2 ∧ (1 : Nat) ≠ 3 ∧ (1 : Nat) ≠ 0x10 ∧
    (5 : Nat) < 256 ∧ (∀ b ∈ [0x10, 0xaa], b < 256) ∧
    ([0x10, 0xaa] : List Nat).length ≤ 1017 ∧
    write_packet_sum 1 5 [0x10, 0xaa] % 256 ≠ 0x10 ∧
    write_packet_sum 1 5 [0x10, 0xaa] / 256 ≠ 0x10 ∧
    decode_stream (write_packet_bytes 1 5 [0x10, 0xaa]) = [(1, 5, [0x10, 0xaa])] :=
  ⟨by decide, by decide, by decide, by decide, by decide, by decide, by decide,
    by decide, by decide,
    ai2_round_trip 1 5 [0x10, 0xaa] (by decide) (by decide) (by decide) (by decide)
      (by decide) (by decide) (by decide) (by decide) (by decide)⟩

/-- C2 (amended): in the encoder output the command byte, the two length
bytes and every payload byte pass through the escaping (a `0x10` is emitted
doubled), but the two checksum bytes are appended raw, outside the escaped
region — a checksum byte equal to `0x10` is emitted once, not doubled. -/
theorem write_packet_checksum_unescaped (cls cmd : Nat) (data : List Nat) :
    write_packet_bytes cls cmd data =
      [0x10, cls] ++
        escape_bytes ([cmd, data.length % 256, data.length / 256] ++ data) ++
        [write_packet_sum cls cmd data % 256, write_packet_sum cls cmd data / 256,
          0x10, 0x03] :=
  write_packet_bytes_eq cls cmd data

/-- C2 counterexample: for `class = 0`, `cmd = 0`, empty payload the checksum
low byte is `0x10`, yet the encoder emits it exactly once (9 bytes on the
wire), while escaping it as the claim states would double it (10 bytes):
the source encoder differs from the spec-modelled escaping encoder. -/
theorem write_packet_checksum_unescaped_counterexample :
    write_packet_sum 0 0 [] % 256 = 0x10 ∧
    write_packet_bytes 0 0 [] = [0x10, 0, 0, 0, 0, 0x10, 0, 0x10, 0x03] ∧
    write_packet_bytes_specEscChk 0 0 []
      = [0x10, 0, 0, 0, 0, 0x10, 0x10, 0, 0x10, 0x03] ∧
    write_packet_bytes 0 0 [] ≠ write_packet_bytes_specEscChk 0 0 [] := by
  refine ⟨by decide, by decide, by decide, by decide⟩

/-! ## Checksum validation (C3) -/

/-- Modelled from the spec: the checksum range the claim describes — the
buffered frame bytes minus the two trailing checksum bytes and minus the
`0x10` start marker, which the claim says is never stored in the buffer. -/
def frame_sum_spec_excl_marker (f : List Nat) : Nat :=
  ((f.take (f.length - 2)).drop 1).sum % 65536

/-- C3 (amended): the validator sums the buffered bytes minus the two
trailing checksum bytes — a range that starts at `buf[0]`, the stored `0x10`
start marker, which therefore is included in the sum — and on a mismatch
with the trailing little-endian checksum it emits the checksum-mismatch
diagnostic and dispatches no sub-packet. -/
theorem checksum_mismatch_rejects (f : List Nat) (h4 : 4 ≤ f.length)
    (hne : frame_chk f ≠ frame_sum f) :
    process_ai2_frame f = ([], [Diag.checksumMismatch]) ∧
    frame_sum f = (f.getD 0 0 + ((f.take (f.length - 2)).drop 1).sum) % 65536 := by
  constructor
  · unfold process_ai2_frame
    rw [if_neg (by omega)]
    simp only []
    rw [if_pos hne]
  · cases f with
    | nil => simp at h4
    | cons x xs =>
      have hx : (x :: xs).length - 2 = (xs.length - 2) + 1 := by
        simp only [List.length_cons] at h4 ⊢
        omega
      unfold frame_sum
      rw [hx, List.take_succ_cons, List.foldl_cons]
      have h0 : ((0 + x) % 65536) = x % 65536 := by omega
      rw [h0, foldl_mod_add]
      simp

/-- C3 amended-theorem witness at a concrete corrupt frame. -/
theorem checksum_mismatch_rejects_witness :
    4 ≤ ([0x10, 1, 0, 0, 0, 99, 0] : List Nat).length ∧
    frame_chk [0x10, 1, 0, 0, 0, 99, 0] ≠ frame_sum [0x10, 1, 0, 0, 0, 99, 0] ∧
    process_ai2_frame [0x10, 1, 0, 0, 0, 99, 0] = ([], [Diag.checksumMismatch]) :=
  ⟨by decide, by decide,
    (checksum_mismatch_rejects [0x10, 1, 0, 0, 0, 99, 0] (by decide) (by decide)).1⟩

/-- C3 counterexample: the framer stores the `0x10` start marker as the
frame's first byte, and the validator accepts a frame whose wire checksum
(`0x0011 = 0x10 + 0x01`) includes the marker — the sum the claim describes,
which excludes the marker, disagrees with the accepted checksum. -/
theorem validator_includes_marker_counterexample :
    (framer_run init_state [0x10, 1, 0, 0, 0, 0x11, 0, 0x10, 3]).frames
        = [[0x10, 1, 0, 0, 0, 0x11, 0]] ∧
    ([0x10, 1, 0, 0, 0, 0x11, 0] : List Nat).getD 0 0 = 0x10 ∧
    process_ai2_frame [0x10, 1, 0, 0, 0, 0x11, 0] = ([(1, 0, [])], []) ∧
    frame_sum_spec_excl_marker [0x10, 1, 0, 0, 0, 0x11, 0]
        ≠ frame_chk [0x10, 1, 0, 0, 0, 0x11, 0] := by
  refine ⟨by decide, by decide, ?_, by decide⟩
  unfold process_ai2_frame
  rw [if_neg (by decide)]
  simp only []
  rw [if_neg (by decide)]
  rw [if_neg (by decide)]
  rw [show (([0x10, 1, 0, 0, 0, 0x11, 0] : List Nat).take
        (([0x10, 1, 0, 0, 0, 0x11, 0] : List Nat).length - 2)).drop 2 = [0, 0, 0]
      by decide]
  rw [show ([0x10, 1, 0, 0, 0, 0x11, 0] : List Nat).getD 1 0 = 1 by decide]
  rw [split_subpackets_step 1 [0, 0, 0] (by decide) (by decide)]
  rw [split_subpackets_short 1 ((([0, 0, 0] : List Nat).drop 3).drop
        (([0, 0, 0] : List Nat).getD 2 0 * 256 + ([0, 0, 0] : List Nat).getD 1 0))
      (by decide)]
  decide

/-! ## Overlong frames (C5) -/

/-- Helper: the overlong store step, on a full buffer with a storable byte. -/
theorem framer_step_full_store (s : FrState) (c : Nat)
    (hfull : s.buf.length = 1024) (hesc : s.escaping = false) (hc : c ≠ 0x10) :
    framer_step s c = ⟨⟨[c % 256], false⟩, none, [.overlong], some 0⟩ := by
  simp [framer_step, hfull, hesc, hc]

/-- C5 (amended): when the 1024-byte buffer is full and the next byte is
stored (it is not an escape `0x10` while collecting un-escaped), the buffered
bytes are discarded and "overlong packet" is logged — but the framer does
not return to idle: the overflowing byte itself is immediately stored at
position 0 as the first byte of a new collection, without waiting for a
`0x10` start marker. -/
theorem framer_overlong_stores_current_byte (s : FrState) (c : Nat)
    (hfull : s.buf.length = 1024) (hesc : s.escaping = false) (hc : c ≠ 0x10) :
    framer_step s c = ⟨⟨[c % 256], false⟩, none, [.overlong], some 0⟩ ∧
    (framer_step s c).st ≠ init_state := by
  refine ⟨framer_step_full_store s c hfull hesc hc, ?_⟩
  rw [framer_step_full_store s c hfull hesc hc]
  simp [init_state]

/-- C5 amended-theorem witness on a concrete full buffer. -/
theorem framer_overlong_stores_current_byte_witness :
    (List.replicate 1024 0 : List Nat).length = 1024 ∧
    (FrState.mk (List.replicate 1024 0) false).escaping = false ∧
    (7 : Nat) ≠ 0x10 ∧
    framer_step ⟨List.replicate 1024 0, false⟩ 7
      = ⟨⟨[7], false⟩, none, [.overlong], some 0⟩ :=
  ⟨by rw [List.length_replicate], rfl, by decide,
    by
      have h := (framer_overlong_stores_current_byte
        ⟨List.replicate 1024 0, false⟩ 7
        (by rw [show (FrState.mk (List.replicate 1024 0) false).buf
              = List.replicate 1024 0 from rfl, List.length_replicate])
        rfl (by decide)).1
      rw [show (7 : Nat) % 256 = 7 from rfl] at h
      exact h⟩

/-- C5 counterexample: after a 1024-byte overrun the framer does not return
to the idle state — the overflowing byte `0` is stored as the first byte of
the next collection, so collection does not resume at the next `0x10`. -/
theorem framer_overlong_counterexample :
    (framer_run init_state (0x10 :: List.replicate 1024 0)).st.buf = [0] ∧
    Diag.overlong ∈ (framer_run init_state (0x10 :: List.replicate 1024 0)).diags ∧
    (framer_run init_state (0x10 :: List.replicate 1024 0)).st ≠ init_state := by
  have hrep1024 : (List.replicate 1024 0 : List Nat) = 0 :: List.replicate 1023 0 := by
    rw [show (1024 : Nat) = 1023 + 1 by norm_num, List.replicate_succ]
  have hrep1023 : (List.replicate 1023 0 : List Nat)
      = List.replicate 1022 0 ++ [0] := by
    rw [show (1023 : Nat) = 1022 + 1 by norm_num, List.replicate_succ']
  have hesc : (List.replicate 1022 0 : List Nat)
      = escape_bytes (List.replicate 1022 0) := by
    rw [escape_bytes_of_no_escape _ (by
      intro b hb
      rw [List.eq_of_mem_replicate hb]
      decide)]
  have hrun : framer_run init_state (0x10 :: List.replicate 1024 0)
      = ⟨⟨[0], false⟩, [], [Diag.overlong]⟩ := by
    show framer_run ⟨[], false⟩ _ = _
    rw [framer_run_cons_silent _ _ _ _ _ (framer_step_idle_marker false)]
    rw [hrep1024]
    rw [framer_run_cons_silent _ _ _ _ _
      (framer_step_class ⟨[0x10], false⟩ 0 rfl rfl (by decide) (by decide))]
    rw [show (FrState.mk ([0x10] ++ [(0 : Nat) % 256]) false)
          = FrState.mk [0x10, 0] false from rfl]
    rw [hrep1023]
    conv_lhs =>
      rw [show (List.replicate 1022 0 ++ [0] : List Nat)
            = escape_bytes (List.replicate 1022 0) ++ [0] by rw [← hesc]]
    rw [framer_run_escaped (List.replicate 1022 0) [0x10, 0] [0]
      (by decide) (by rw [List.length_replicate]; decide) (by
        intro b hb
        rw [List.eq_of_mem_replicate hb]
        decide)]
    rw [framer_run_cons_diag _ _ _ _ _ _
      (framer_step_full_store ⟨[0x10, 0] ++ List.replicate 1022 0, false⟩ 0
        (by
          rw [show (FrState.mk ([0x10, 0] ++ List.replicate 1022 0) false).buf
                = [0x10, 0] ++ List.replicate 1022 0 from rfl]
          rw [List.length_append, List.length_replicate]
          decide)
        rfl (by decide))]
    rfl
  rw [hrun]
  exact ⟨rfl, by simp, by simp [init_state]⟩

/-! ## Sub-packet cut-off (C6) -/

/-- One sub-packet as laid out in a frame body: type byte, little-endian
16-bit payload length, payload bytes. -/
def encode_sub (ty : Nat) (payload : List Nat) : List Nat :=
  [ty, payload.length % 256, payload.length / 256] ++ payload

/-- C6: on a frame body made of well-formed sub-packets followed by a
truncated trailer (its declared little-endian length exceeds the remaining
bytes), the splitter dispatches every well-formed sub-packet, then emits
"packet cut off" once and stops — the earlier dispatches are unaffected. -/
theorem split_cutoff_preserves_prefix (cls : Nat)
    (subs : List (Nat × List Nat)) (t : List Nat)
    (hsub : ∀ s ∈ subs, (s.2 : List Nat).length < 65536)
    (ht3 : 3 ≤ t.length)
    (hcut : t.length - 3 < t.getD 2 0 * 256 + t.getD 1 0) :
    split_subpackets cls ((subs.map (fun s => encode_sub s.1 s.2)).flatten ++ t)
      = (subs.map (fun s => (cls, s.1, s.2)), [Diag.cutOff]) := by
  induction subs with
  | nil =>
    simp only [List.map_nil, List.flatten_nil, List.nil_append]
    exact split_subpackets_cutoff cls t ht3 hcut
  | cons s ss ih =>
    have hp : s.2.length < 65536 := hsub s (by simp)
    have hss : ∀ x ∈ ss, (x.2 : List Nat).length < 65536 :=
      fun x hx => hsub x (by simp [hx])
    set rest : List Nat := (ss.map (fun x => encode_sub x.1 x.2)).flatten with hrest
    have hbody : ((s :: ss).map (fun x => encode_sub x.1 x.2)).flatten ++ t
        = s.1 :: s.2.length % 256 :: s.2.length / 256 :: (s.2 ++ (rest ++ t)) := by
      simp [encode_sub, hrest]
    rw [hbody]
    have h3 : ¬ (s.1 :: s.2.length % 256 :: s.2.length / 256
        :: (s.2 ++ (rest ++ t))).length < 3 := by
      simp
    have hg0 : (s.1 :: s.2.length % 256 :: s.2.length / 256
        :: (s.2 ++ (rest ++ t))).getD 0 0 = s.1 := rfl
    have hg1 : (s.1 :: s.2.length % 256 :: s.2.length / 256
        :: (s.2 ++ (rest ++ t))).getD 1 0 = s.2.length % 256 := rfl
    have hg2 : (s.1 :: s.2.length % 256 :: s.2.length / 256
        :: (s.2 ++ (rest ++ t))).getD 2 0 = s.2.length / 256 := rfl
    have hdrop3 : (s.1 :: s.2.length % 256 :: s.2.length / 256
        :: (s.2 ++ (rest ++ t))).drop 3 = s.2 ++ (rest ++ t) := rfl
    have hsublen : (s.1 :: s.2.length % 256 :: s.2.length / 256
          :: (s.2 ++ (rest ++ t))).getD 2 0 * 256
        + (s.1 :: s.2.length % 256 :: s.2.length / 256
          :: (s.2 ++ (rest ++ t))).getD 1 0 = s.2.length := by
      rw [hg1, hg2]
      omega
    rw [split_subpackets_step cls _ h3 (by
      rw [hsublen, hdrop3]
      simp only [List.length_append]
      omega)]
    rw [hsublen, hdrop3, hg0]
    rw [List.take_left' rfl, List.drop_left' rfl]
    rw [ih hss]
    simp

/-- C6 witness: one complete sub-packet followed by a trailer declaring
5 payload bytes with only 1 remaining. -/
theorem split_cutoff_preserves_prefix_witness :
    (∀ s ∈ ([(8, [1, 2])] : List (Nat × List Nat)), (s.2 : List Nat).length < 65536) ∧
    3 ≤ ([9, 5, 0, 1] : List Nat).length ∧
    ([9, 5, 0, 1] : List Nat).length - 3
        < ([9, 5, 0, 1] : List Nat).getD 2 0 * 256 + ([9, 5, 0, 1] : List Nat).getD 1 0 ∧
    split_subpackets 5
        ((([(8, [1, 2])] : List (Nat × List Nat)).map
          (fun s => encode_sub s.1 s.2)).flatten ++ [9, 5, 0, 1])
      = ([(5, 8, [1, 2])], [Diag.cutOff]) :=
  ⟨by decide, by decide, by decide,
    split_cutoff_preserves_prefix 5 [(8, [1, 2])] [9, 5, 0, 1]
      (by decide) (by decide) (by decide)⟩

/-! ## Measurement decoding (C7) -/

/-- C7: a measurement payload of at least 4 bytes decodes exactly
`(len - 4) / 28` satellite records and flags "excess data" exactly when
`len - 4` is not a multiple of the fixed 28-byte record size; a payload of
fewer than 4 bytes is skipped without decoding. -/
theorem measurement_record_count (data : List Nat) :
    (4 ≤ data.length →
      ∃ m, process_measurement data = some m ∧
        m.svs.length = (data.length - 4) / 28 ∧
        m.sats = (data.length - 4) / 28 ∧
        (m.excess = true ↔ ¬ (28 ∣ data.length - 4))) ∧
    (data.length < 4 → process_measurement data = none) := by
  constructor
  · intro h4
    have hps : process_measurement data
        = some { fcount := le32D data 0
                 sats := (data.length - 4) / measurement_sv_size
                 svs := (List.range ((data.length - 4) / measurement_sv_size)).map
                          (read_measurement_sv data)
                 excess := decide ((data.length - 4) % measurement_sv_size ≠ 0) } := by
      unfold process_measurement
      rw [if_neg (by omega)]
    refine ⟨_, hps, ?_, ?_, ?_⟩
    · simp [measurement_sv_size]
    · simp [measurement_sv_size]
    · simp [measurement_sv_size, Nat.dvd_iff_mod_eq_zero]
  · intro h4
    unfold process_measurement
    rw [if_pos h4]

/-- C7 witness: a payload of `4 + 28 * 3 + 5 = 93` bytes decodes exactly
3 records and flags "excess data". -/
theorem measurement_record_count_witness :
    4 ≤ (List.replicate 93 0 : List Nat).length ∧
    (∃ m, process_measurement (List.replicate 93 0) = some m ∧
      m.svs.length = 3 ∧ m.sats = 3 ∧ m.excess = true) := by
  have h93 : (List.replicate 93 0 : List Nat).length = 93 := by
    rw [List.length_replicate]
  refine ⟨by rw [h93]; omega, ?_⟩
  obtain ⟨m, hm, hsv, hsats, hexc⟩ :=
    (measurement_record_count (List.replicate 93 0)).1 (by rw [h93]; omega)
  rw [h93] at hsv hsats
  exact ⟨m, hm, by rw [hsv], by rw [hsats],
    hexc.mpr (by rw [h93]; decide)⟩

/-! ## Framer store bounds (C9) -/

/-- Every framer step keeps the buffer at or below the 1024-byte capacity
and performs its store, if any, at an index strictly below 1024. -/
theorem framer_step_bounds (s : FrState) (c : Nat) (hs : s.buf.length ≤ 1024) :
    (framer_step s c).st.buf.length ≤ 1024 ∧
    (∀ i ∈ (framer_step s c).store.toList, i < 1024) := by
  unfold framer_step
  by_cases h1 : s.buf.length = 0 ∧ c ≠ 0x10
  · rw [if_pos h1]
    simpa using hs
  rw [if_neg h1]
  by_cases h2 : s.buf.length = 1 ∧ c = 3
  · rw [if_pos h2]
    simp
  rw [if_neg h2]
  by_cases h3 : ¬(if s.buf.length = 0 then false else s.escaping) = true
      ∧ c = 0x10 ∧ s.buf.length ≠ 0
  · rw [if_pos h3]
    simpa using hs
  rw [if_neg h3]
  by_cases h4 : (if s.buf.length = 0 then false else s.escaping) = true ∧ c = 3
  · rw [if_pos h4]
    simp
  rw [if_neg h4]
  by_cases hfull : s.buf.length = 1024
  · rw [if_pos hfull, if_pos hfull]
    simp
  · rw [if_neg hfull, if_neg hfull]
    constructor
    · simp only [List.length_append, List.length_cons, List.length_nil]
      omega
    · intro i hi
      simp only [Option.toList_some, List.mem_singleton] at hi
      omega

/-- C9: on every input byte stream, every store the framer performs into the
1024-byte `gpsbuf` uses an index strictly below 1024 — the capacity check
resets the write position before the overflowing byte is stored. -/
theorem framer_stores_in_bounds (input : List Nat) (i : Nat)
    (hi : i ∈ framer_stores init_state input) : i < 1024 := by
  suffices h : ∀ (inp : List Nat) (s : FrState), s.buf.length ≤ 1024 →
      ∀ j ∈ framer_stores s inp, j < 1024 by
    exact h input init_state (by simp [init_state]) i hi
  intro inp
  induction inp with
  | nil => intro s hs j hj; simp [framer_stores] at hj
  | cons c rest ih =>
    intro s hs j hj
    rw [show framer_stores s (c :: rest)
          = (framer_step s c).store.toList ++ framer_stores (framer_step s c).st rest
        from rfl] at hj
    rcases List.mem_append.mp hj with hj | hj
    · exact (framer_step_bounds s c hs).2 j hj
    · exact ih (framer_step s c).st (framer_step_bounds s c hs).1 j hj

/-- C9 witness: the first store of a minimal run, checked in bounds. -/
theorem framer_stores_in_bounds_witness :
    0 ∈ framer_stores init_state [0x10] ∧ 0 < 1024 :=
  ⟨by decide, framer_stores_in_bounds [0x10] 0 (by decide)⟩

/-! ## Position decoding (C8) -/

/-- The little-endian byte layout of a 32-bit field. -/
def le32_bytes (v : Nat) : List Nat :=
  [v % 256, v / 256 % 256, v / 65536 % 256, v / 16777216 % 256]

/-- The little-endian byte layout of a 16-bit field. -/
def le16_bytes (v : Nat) : List Nat :=
  [v % 256, v / 256 % 256]

/-- A raw `struct position` payload assembled from its wire fields:
`fcount` (u32), `unknown1` (u16), `lat` and `lon` (i32, given as their
unsigned bit patterns), `altitude` (i16 bit pattern), `unknown2`
(15 filler bytes). -/
def mk_position_payload (fc u1 lat lon alt : Nat) (unk2 : List Nat) : List Nat :=
  le32_bytes fc ++ le16_bytes u1 ++ le32_bytes lat ++ le32_bytes lon ++
    le16_bytes alt ++ unk2

/-- C8: a header-sized position payload decodes with
`lat_deg = 90 * lat / 2^31`, `lon_deg = 180 * lon / 2^31` and
`altitude_m = altitude / 2`, the raw fields being read as little-endian
signed (two's-complement) integers. -/
theorem position_decode (fc u1 lat lon alt : Nat) (unk2 : List Nat)
    (hfc : fc < 2 ^ 32) (hlat : lat < 2 ^ 32) (hlon : lon < 2 ^ 32)
    (halt : alt < 2 ^ 16) (hu : unk2.length = 15) :
    process_position (mk_position_payload fc u1 lat lon alt unk2)
      = some { fcount := fc
               lat_deg := 90 * (sint32 lat : ℚ) / 2147483648
               lon_deg := 180 * (sint32 lon : ℚ) / 2147483648
               altitude_m := (sint16 alt : ℚ) / 2
               svs := [] } := by
  have hshape : mk_position_payload fc u1 lat lon alt unk2
      = fc % 256 :: (fc / 256 % 256) :: (fc / 65536 % 256) :: (fc / 16777216 % 256)
        :: (u1 % 256) :: (u1 / 256 % 256)
        :: (lat % 256) :: (lat / 256 % 256) :: (lat / 65536 % 256) :: (lat / 16777216 % 256)
        :: (lon % 256) :: (lon / 256 % 256) :: (lon / 65536 % 256) :: (lon / 16777216 % 256)
        :: (alt % 256) :: (alt / 256 % 256) :: unk2 := by
    simp [mk_position_payload, le32_bytes, le16_bytes]
  rw [hshape]
  have hlen : (fc % 256 :: (fc / 256 % 256) :: (fc / 65536 % 256) :: (fc / 16777216 % 256)
        :: (u1 % 256) :: (u1 / 256 % 256)
        :: (lat % 256) :: (lat / 256 % 256) :: (lat / 65536 % 256) :: (lat / 16777216 % 256)
        :: (lon % 256) :: (lon / 256 % 256) :: (lon / 65536 % 256) :: (lon / 16777216 % 256)
        :: (alt % 256) :: (alt / 256 % 256) :: unk2).length = 31 := by
    simp [hu]
  unfold process_position
  rw [if_neg (by rw [hlen]; simp [position_size])]
  have hfc4 : le32D (fc % 256 :: (fc / 256 % 256) :: (fc / 65536 % 256)
        :: (fc / 16777216 % 256) :: (u1 % 256) :: (u1 / 256 % 256)
        :: (lat % 256) :: (lat / 256 % 256) :: (lat / 65536 % 256) :: (lat / 16777216 % 256)
        :: (lon % 256) :: (lon / 256 % 256) :: (lon / 65536 % 256) :: (lon / 16777216 % 256)
        :: (alt % 256) :: (alt / 256 % 256) :: unk2) 0 = fc := by
    simp only [le32D, List.getD_cons_zero, List.getD_cons_succ]
    omega
  have hlat4 : le32D (fc % 256 :: (fc / 256 % 256) :: (fc / 65536 % 256)
        :: (fc / 16777216 % 256) :: (u1 % 256) :: (u1 / 256 % 256)
        :: (lat % 256) :: (lat / 256 % 256) :: (lat / 65536 % 256) :: (lat / 16777216 % 256)
        :: (lon % 256) :: (lon / 256 % 256) :: (lon / 65536 % 256) :: (lon / 16777216 % 256)
        :: (alt % 256) :: (alt / 256 % 256) :: unk2) 6 = lat := by
    simp only [le32D, List.getD_cons_zero, List.getD_cons_succ]
    omega
  have hlon4 : le32D (fc % 256 :: (fc / 256 % 256) :: (fc / 65536 % 256)
        :: (fc / 16777216 % 256) :: (u1 % 256) :: (u1 / 256 % 256)
        :: (lat % 256) :: (lat / 256 % 256) :: (lat / 65536 % 256) :: (lat / 16777216 % 256)
        :: (lon % 256) :: (lon / 256 % 256) :: (lon / 65536 % 256) :: (lon / 16777216 % 256)
        :: (alt % 256) :: (alt / 256 % 256) :: unk2) 10 = lon := by
    simp only [le32D, List.getD_cons_zero, List.getD_cons_succ]
    omega
  have halt2 : le16D (fc % 256 :: (fc / 256 % 256) :: (fc / 65536 % 256)
        :: (fc / 16777216 % 256) :: (u1 % 256) :: (u1 / 256 % 256)
        :: (lat % 256) :: (lat / 256 % 256) :: (lat / 65536 % 256) :: (lat / 16777216 % 256)
        :: (lon % 256) :: (lon / 256 % 256) :: (lon / 65536 % 256) :: (lon / 16777216 % 256)
        :: (alt % 256) :: (alt / 256 % 256) :: unk2) 14 = alt := by
    simp only [le16D, List.getD_cons_zero, List.getD_cons_succ]
    omega
  rw [hfc4, hlat4, hlon4, halt2, hlen]
  simp [position_size]

/-- C8 witness: raw `lat = 2^30` gives `lat_deg = 45`, raw `lon = 0` gives
`lon_deg = 0`, raw `altitude = 20` gives `altitude_m = 10`. -/
theorem position_decode_witness :
    (0 : Nat) < 2 ^ 32 ∧ (1073741824 : Nat) < 2 ^ 32 ∧ (0 : Nat) < 2 ^ 32 ∧
    (20 : Nat) < 2 ^ 16 ∧ (List.replicate 15 0 : List Nat).length = 15 ∧
    process_position (mk_position_payload 0 0 1073741824 0 20 (List.replicate 15 0))
      = some { fcount := 0, lat_deg := 45, lon_deg := 0, altitude_m := 10,
               svs := [] } := by
  refine ⟨by norm_num, by norm_num, by norm_num, by norm_num, by decide, ?_⟩
  rw [position_decode 0 0 1073741824 0 20 (List.replicate 15 0)
    (by norm_num) (by norm_num) (by norm_num) (by norm_num) (by decide)]
  simp only [sint32, sint16]
  norm_num

/-! ## Encoder allocation bound (C10) -/

/-- C10: the store sequence of `write_packet` (stores happen at successive
indices `0, 1, 2, ...`, so the k-th store uses index k) exceeds the
`calloc(1, 4 + len * 2 + 2)` allocation for the program's own
`WRITE_PKT(fd, 0x01, 0xf0, {})` call: 9 bytes are stored into a 6-byte
buffer, so the stores at indices 6, 7, 8 are out of bounds. -/
theorem write_packet_overflows_allocation :
    (write_packet_bytes 1 0xf0 []).length = 9 ∧
    write_packet_alloc ([] : List Nat).length = 6 ∧
    write_packet_alloc ([] : List Nat).length
        < (write_packet_bytes 1 0xf0 []).length := by
  refine ⟨by decide, by decide, by decide⟩

/-! ## Decoder bounds (C4) -/

/-- C4: `process_async_event` switches on `data[0]` without checking
`len >= 1`, and `process_nmea` reads the 4-byte `fcount` without checking
`len >= 4`; on an empty async-event payload and on NMEA payloads shorter
than 4 bytes the C code reads past the payload (the fallible reads in the
model return `none` exactly when the C read is out of range). -/
theorem decoders_read_out_of_range :
    process_async_event [] = none ∧
    process_nmea [] = none ∧
    process_nmea [1, 2, 3] = none :=
  ⟨rfl, rfl, rfl⟩
